import Mathlib

/-!
Verification of the Star Wars API aggregation service.

This file gives a shallow embedding, in Lean 4, of the core functions of the
repository (`shared/utils.py`, `shared/swapi_client.py`, and the endpoint
assembly in `functions/planets/main.py`), and proves or refutes the frozen
claims about them.

Modelling conventions:
* Python `str` is modelled by `String` (code-point sequences, matching
  Python's `len`, slicing and lexicographic `<` on code points); `.lower()`
  is modelled by `String.toLower` (ASCII case folding).
* A loosely-typed SWAPI record (a JSON object) is modelled by `Entity`,
  an association list from field names to `PyVal` values.
* Python numbers are modelled by `ℚ` (exact arithmetic; the decimal strings
  appearing in the data parse exactly).
* Fallible code (HTTP requests, functions that may raise) is modelled in
  `Except`; a `try/except` block is an explicit `match` on the `Except`
  value.  Nondeterministic completion order of concurrent page fetches is
  an explicit `completionOrder` parameter.
-/

namespace StarWarsApi

/-- A Python/JSON value as it occurs in SWAPI records: `None`, a string,
a number (int or float, modelled exactly by `ℚ`), or a list of strings
(the cross-reference URL lists). -/
inductive PyVal where
  | vNone : PyVal
  | vStr (s : String) : PyVal
  | vNum (q : ℚ) : PyVal
  | vList (l : List String) : PyVal
  deriving DecidableEq, Repr

/-- A loosely-typed SWAPI record (`Dict[str, Any]`): an association list of
field name/value pairs (our records have distinct keys; `pyGet` reads the
first binding, like a Python dict lookup). -/
def Entity : Type := List (String × PyVal)

instance : DecidableEq Entity := by
  unfold Entity
  infer_instance

instance : Repr Entity := by
  unfold Entity
  infer_instance

/-- Model of `item.get(field)` — `none` models both a missing key and Python `None`
is kept separate as `PyVal.vNone`. -/
def pyGet (item : Entity) (field : String) : Option PyVal :=
  (item.find? (fun p => p.1 == field)).map (fun p => p.2)

/-- Python truthiness of a value (`if value:`). -/
def pyTruthy : PyVal → Bool
  | .vNone => false
  | .vStr s => s ≠ ""
  | .vNum q => q ≠ 0
  | .vList l => ¬ l.isEmpty

/-- Truthiness of an optional field value: a missing field is falsy. -/
def pyTruthyOpt : Option PyVal → Bool
  | none => false
  | some v => pyTruthy v

/-- Python `str(value)` for the values reachable in `filter_by_field`
(after the truthiness guard).  `str` of a non-integral float is not needed
by any claim and is given a placeholder rendering. -/
def pyStrVal : PyVal → String
  | .vNone => "None"
  | .vStr s => s
  | .vNum q => if q.den = 1 then toString q.num else toString q
  | .vList l => toString l

/-- Python `str.lower()` (ASCII case folding), computed on the character
list so that it reduces inside the kernel. -/
def pyLower (s : String) : String :=
  String.mk (s.toList.map Char.toLower)

/-- Python `str.strip()` (whitespace at both ends). -/
def pyStrip (cs : List Char) : List Char :=
  ((cs.dropWhile Char.isWhitespace).reverse.dropWhile Char.isWhitespace).reverse

/-- Boolean substring containment on character lists (Python `in` on str). -/
def containsSub (needle : List Char) : List Char → Bool
  | [] => needle.isEmpty
  | c :: t => needle.isPrefixOf (c :: t) || containsSub needle t

/-- Model of `shared/utils.py: filter_by_field` — keeps the items whose `field`
value is truthy and whose stringification contains `value`,
case-insensitively; an empty `value` returns the input unchanged. -/
def filter_by_field (data : List Entity) (field : String) (value : String) : List Entity :=
  if value = "" then data
  else
    let value_lower := pyLower value
    data.filter (fun item =>
      pyTruthyOpt (pyGet item field) &&
        containsSub value_lower.toList
          (match pyGet item field with
            | some v => (pyLower (pyStrVal v)).toList
            | none => (pyLower "None").toList))

/-- Python slice `text[:k]` for an `int` bound `k` (negative `k` counts
from the end, clamped at 0). -/
def pyTake (l : List Char) (k : Int) : List Char :=
  if 0 ≤ k then l.take k.toNat else l.take ((l.length : Int) + k).toNat

/-- Model of `shared/utils.py: truncate_text` — empty text yields `""`; text within
the bound is returned unchanged; longer text becomes
`text[:max_length - 3] + "..."` (note the Python negative-slice semantics
when `max_length < 3`). -/
def truncate_text (text : String) (max_length : Int := 100) : String :=
  if text = "" then ""
  else if (text.length : Int) ≤ max_length then text
  else String.mk (pyTake text.toList (max_length - 3)) ++ "..."

/-- Numeric value of a (non-empty) list of decimal digit characters
(Python `int(...)` of the matched group; leading zeros allowed). -/
def digitsVal (ds : List Char) : Nat :=
  ds.foldl (fun acc c => 10 * acc + (c.toNat - '0'.toNat)) 0

/-- The trailing run of decimal digits of a character list. -/
def digitRun (cs : List Char) : List Char :=
  (cs.reverse.takeWhile Char.isDigit).reverse

/-- The regex match `/(\d+)$` against an exact string: the string must end
in a (non-empty) run of decimal digits immediately preceded by `'/'`; the
run's value is returned. -/
def extract_core (cs : List Char) : Option Nat :=
  if (digitRun cs).isEmpty then none
  else if (cs.take (cs.length - (digitRun cs).length)).getLast? = some '/' then
    some (digitsVal (digitRun cs))
  else none

/-- Model of `shared/swapi_client.py: SWAPIClient.extract_id_from_url` — the regex
search `/(\d+)/?$`: after discarding at most one trailing `'/'` (the `/?`),
the string must end in a run of decimal digits immediately preceded by
`'/'`; the run is returned as a number, otherwise `None`.  (`\d` is
modelled as the ASCII digits, which is what SWAPI URLs contain.) -/
def extract_id_from_url (url : String) : Option Nat :=
  if url.toList.getLast? = some '/' then extract_core url.toList.dropLast
  else extract_core url.toList

/-- The same call as performed by Python on an arbitrary `Optional[str]`
argument: `re.search(pattern, None)` raises `TypeError`, modelled as
`Except.error`. -/
def extract_id_from_url_opt (url : Option String) : Except Unit (Option Nat) :=
  match url with
  | none => .error ()
  | some s => .ok (extract_id_from_url s)

/-! ### The sort comparator (`shared/utils.py: sort_data`) -/

/-- The value `get_sort_key` hands to the comparison: a number (Python int
or float), the `float('inf')` missing-value sentinel, a lowercased string,
or a raw list value. -/
inductive SKey where
  | num (q : ℚ) : SKey
  | inf : SKey
  | str (s : String) : SKey
  | lst (l : List String) : SKey
  deriving DecidableEq, Repr

/-- Python `int(value)` on a string: optional surrounding whitespace,
optional sign, then a non-empty run of decimal digits (digit-group
underscores are not modelled; they do not occur in the catalog data). -/
def pyParseInt (s : String) : Option Int :=
  let cs := pyStrip s.toList
  let core : List Char → Option Nat := fun ds =>
    if ds.isEmpty then none
    else if ds.all Char.isDigit then some (digitsVal ds) else none
  match cs with
  | '-' :: rest => (core rest).map (fun n => -(n : Int))
  | '+' :: rest => (core rest).map (fun n => (n : Int))
  | rest => (core rest).map (fun n => (n : Int))

/-- Python `float(value)` restricted to the shapes reachable in
`get_sort_key` (the string contains a `'.'`): optional surrounding
whitespace, optional sign, digits around exactly one decimal point, at
least one digit in total (exponent forms are not modelled). -/
def pyParseFloat (s : String) : Option ℚ :=
  let cs := pyStrip s.toList
  let core : List Char → Option ℚ := fun ds =>
    match ds.splitOn '.' with
    | [a, b] =>
      if (a.all Char.isDigit && b.all Char.isDigit) && !(a.isEmpty && b.isEmpty) then
        some ((digitsVal a : ℚ) + (digitsVal b : ℚ) / ((10 : ℚ) ^ b.length))
      else none
    | _ => none
  match cs with
  | '-' :: rest => (core rest).map (fun q => -q)
  | '+' :: rest => core rest
  | rest => core rest

/-- Model of `get_sort_key` (the closure inside `sort_data`): `None`/missing maps to
the `float('inf')` sentinel; a string is parsed as int (no `'.'`) or float
(with `'.'`), falling back to its lowercase form; any other value is
returned raw. -/
def get_sort_key (sort_by : String) (item : Entity) : SKey :=
  match pyGet item sort_by with
  | none => .inf
  | some .vNone => .inf
  | some (.vStr s) =>
    if s.toList.contains '.' then
      match pyParseFloat s with
      | some q => .num q
      | none => .str (pyLower s)
    else
      match pyParseInt s with
      | some n => .num (n : ℚ)
      | none => .str (pyLower s)
  | some (.vNum q) => .num q
  | some (.vList l) => .lst l

/-- Python `<` on lists of strings: lexicographic, a strict prefix is
smaller. -/
def lexLtStrList : List String → List String → Bool
  | _, [] => false
  | [], _ :: _ => true
  | a :: xs, b :: ys => if a < b then true else if a = b then lexLtStrList xs ys else false

/-- Python `<` between two sort keys: defined (`some`) within one
comparison class (numbers-with-inf, strings, lists), raising `TypeError`
(`none`) across classes. -/
def pyLt : SKey → SKey → Option Bool
  | .num a, .num b => some (decide (a < b))
  | .num _, .inf => some true
  | .inf, .num _ => some false
  | .inf, .inf => some false
  | .str a, .str b => some (decide (a < b))
  | .lst a, .lst b => some (lexLtStrList a b)
  | _, _ => none

/-- Whether the already-placed element with key `ky` stays in front of the
element with key `kx` being inserted behind it.  `sorted` is stable for
both directions (CPython implements `reverse=True` by reversing before and
after the stable sort), so ties always answer `false` and the inserted
element — originally earlier in the list — goes in front. -/
def stayBefore (reverse : Bool) (ky kx : SKey) : Option Bool :=
  if reverse then pyLt kx ky else pyLt ky kx

/-- One stable insertion step; comparisons across classes propagate the
`TypeError`. -/
def insertE (rev : Bool) (key : Entity → SKey) (x : Entity) : List Entity → Except Unit (List Entity)
  | [] => .ok [x]
  | y :: ys =>
    match stayBefore rev (key y) (key x) with
    | none => .error ()
    | some true => (insertE rev key x ys).map (fun r => y :: r)
    | some false => .ok (x :: y :: ys)

/-- Stable sort in the `Except` monad: the unique stable ordering Python's
`sorted` produces, or a `TypeError` when elements of different comparison
classes must be compared. -/
def sortE (rev : Bool) (key : Entity → SKey) : List Entity → Except Unit (List Entity)
  | [] => .ok []
  | x :: xs => (sortE rev key xs).bind (insertE rev key x)

/-- Model of `shared/utils.py: sort_data` — `sorted(data, key=get_sort_key,
reverse=(order == "desc"))`. -/
def sort_data (data : List Entity) (sort_by : String) (order : String := "asc") :
    Except Unit (List Entity) :=
  sortE (order == "desc") (get_sort_key sort_by) data

/-- Pure counterpart of `insertE`, used to reason about the runs on which
no `TypeError` occurs. -/
def insertP (rev : Bool) (key : Entity → SKey) (x : Entity) : List Entity → List Entity
  | [] => [x]
  | y :: ys =>
    if (stayBefore rev (key y) (key x)).getD false then y :: insertP rev key x ys
    else x :: y :: ys

/-- Pure counterpart of `sortE`. -/
def sortP (rev : Bool) (key : Entity → SKey) : List Entity → List Entity
  | [] => []
  | x :: xs => insertP rev key x (sortP rev key xs)

/-! ### The remote resource client (`shared/swapi_client.py`) -/

/-- What one network attempt yields: an HTTP response with a status code
and a parsed JSON body (`none` when `response.json()` raises
`ValueError`), a timeout (`requests.exceptions.Timeout`), or another
transport failure (`requests.exceptions.RequestException`). -/
inductive NetOutcome (α : Type) where
  | resp (status : Nat) (body : Option α) : NetOutcome α
  | timeout : NetOutcome α
  | netFail : NetOutcome α

/-- The `SWAPIException` variants `_make_request` can raise. -/
inductive SwErr where
  | notFound : SwErr
  | clientErr (status : Nat) : SwErr
  | serverErr (status : Nat) : SwErr
  | timeoutErr : SwErr
  | requestErr : SwErr
  | invalidJson : SwErr
  | loopEnd : SwErr
  deriving DecidableEq, Repr

/-- The body of `_make_request`'s `for attempt in range(1, MAX_RETRIES+1)`
loop, with the network modelled as a map from attempt number to outcome.
Returns the result together with the number of attempts performed; the
fuel counts the remaining loop iterations (`loopEnd` is the unreachable
`raise` after the loop). -/
def attemptsLoop (r : Nat → NetOutcome α) (maxRetries : Nat) :
    Nat → Nat → Except SwErr α × Nat
  | attempt, 0 => (.error .loopEnd, attempt - 1)
  | attempt, fuel + 1 =>
    match r attempt with
    | .resp s b =>
      if s = 404 then (.error .notFound, attempt)
      else if 400 ≤ s ∧ s < 500 then (.error (.clientErr s), attempt)
      else if 500 ≤ s then
        if attempt = maxRetries then (.error (.serverErr s), attempt)
        else attemptsLoop r maxRetries (attempt + 1) fuel
      else
        match b with
        | some d => (.ok d, attempt)
        | none => (.error .invalidJson, attempt)
    | .timeout =>
      if attempt = maxRetries then (.error .timeoutErr, attempt)
      else attemptsLoop r maxRetries (attempt + 1) fuel
    | .netFail =>
      if attempt = maxRetries then (.error .requestErr, attempt)
      else attemptsLoop r maxRetries (attempt + 1) fuel

/-- Model of `SWAPIClient._make_request` with `MAX_RETRIES = 3`: attempts start at
1; `time.sleep` backoff has no observable effect on the result and is
omitted. -/
def make_request (r : Nat → NetOutcome α) : Except SwErr α × Nat :=
  attemptsLoop r 3 1 3

/-- An attempt outcome the retry policy classifies as transient: a 5xx
response, a timeout, or a transport failure. -/
def retryable : NetOutcome α → Prop
  | .resp s _ => 500 ≤ s
  | .timeout => True
  | .netFail => True

/-- Model of `functools.lru_cache` lookup on an association list kept in
most-recently-used-first order: a hit moves the entry to the front. -/
def lruGet (cache : List (Int × Entity)) (k : Int) :
    Option Entity × List (Int × Entity) :=
  match cache.find? (fun p => p.1 == k) with
  | some p => (some p.2, (k, p.2) :: cache.filter (fun q => q.1 != k))
  | none => (none, cache)

/-- Model of `functools.lru_cache(maxsize=128)` insertion: new entry in front, the
least recently used entry beyond the bound is evicted. -/
def lruPut (cache : List (Int × Entity)) (k : Int) (v : Entity) :
    List (Int × Entity) :=
  ((k, v) :: cache).take 128

/-- Model of `SWAPIClient.get_film_by_id` — decorated with
`@lru_cache(maxsize=128)`: a cache hit returns the stored body with no
network request; a miss performs one request and stores a successful
result (`lru_cache` does not cache raised exceptions).  The network is
abstracted as endpoint path ↦ result, and the call returns
(result, new cache, number of network requests performed). -/
def get_film_by_id (net : String → Except SwErr Entity)
    (cache : List (Int × Entity)) (film_id : Int) :
    Except SwErr Entity × List (Int × Entity) × Nat :=
  match lruGet cache film_id with
  | (some v, c') => (.ok v, c', 0)
  | (none, c') =>
    match net ("films/" ++ toString film_id ++ "/") with
    | .ok d => (.ok d, lruPut c' film_id d, 1)
    | .error e => (.error e, c', 1)

/-- Model of `SWAPIClient.get_person_by_id` — NOT decorated with `@lru_cache`: it
has no cache to consult or update, and every call performs exactly one
network request. -/
def get_person_by_id (net : String → Except SwErr Entity) (person_id : Int) :
    Except SwErr Entity × Nat :=
  (net ("people/" ++ toString person_id ++ "/"), 1)

/-! ### Shaping and enrichment (`shared/utils.py`)

The by-id client calls are abstracted as deterministic maps
`Nat → Except SwErr Entity`; with a deterministic network a cached lookup
returns the same body a fresh request would, so the cache state does not
appear in this layer. -/

/-- The by-id lookups the enrichment code performs, as one record. -/
structure SwapiClient where
  getFilmById : Nat → Except SwErr Entity
  getPersonById : Nat → Except SwErr Entity
  getPlanetById : Nat → Except SwErr Entity

/-- Model of `item.get(k)` as a value: missing keys give Python `None`. -/
def pyGetV (item : Entity) (k : String) : PyVal :=
  (pyGet item k).getD .vNone

/-- Model of `item.get(k, default)` for string-valued fields (the catalog's scalar
fields are strings; `len`/slicing of a non-string value is not modelled). -/
def pyGetStrD (item : Entity) (k : String) (d : String) : String :=
  match pyGet item k with
  | some (.vStr s) => s
  | _ => d

/-- Model of `len(item.get(k, []))` — the relation fields are URL lists; a missing
field counts 0. -/
def pyLenD (item : Entity) (k : String) : Nat :=
  match pyGet item k with
  | some (.vList l) => l.length
  | some (.vStr s) => s.length
  | _ => 0

/-- Model of `shared/utils.py: enrich_film_data` — fixed projection; relation
lists become counts; `opening_crawl` is truncated to 100 characters. -/
def enrich_film_data (film : Entity) : Entity :=
  [("episode_id", pyGetV film "episode_id"),
   ("title", pyGetV film "title"),
   ("release_date", pyGetV film "release_date"),
   ("director", pyGetV film "director"),
   ("producer", pyGetV film "producer"),
   ("opening_crawl", .vStr (truncate_text (pyGetStrD film "opening_crawl" "") 100)),
   ("characters_count", .vNum (pyLenD film "characters")),
   ("planets_count", .vNum (pyLenD film "planets")),
   ("starships_count", .vNum (pyLenD film "starships")),
   ("vehicles_count", .vNum (pyLenD film "vehicles")),
   ("species_count", .vNum (pyLenD film "species")),
   ("url", pyGetV film "url")]

/-- Model of `shared/utils.py: enrich_character_data`. -/
def enrich_character_data (character : Entity) : Entity :=
  [("name", pyGetV character "name"),
   ("height", pyGetV character "height"),
   ("mass", pyGetV character "mass"),
   ("hair_color", pyGetV character "hair_color"),
   ("skin_color", pyGetV character "skin_color"),
   ("eye_color", pyGetV character "eye_color"),
   ("birth_year", pyGetV character "birth_year"),
   ("gender", pyGetV character "gender"),
   ("homeworld", pyGetV character "homeworld"),
   ("films_count", .vNum (pyLenD character "films")),
   ("species_count", .vNum (pyLenD character "species")),
   ("vehicles_count", .vNum (pyLenD character "vehicles")),
   ("starships_count", .vNum (pyLenD character "starships")),
   ("url", pyGetV character "url")]

/-- Model of `shared/utils.py: enrich_planet_data`. -/
def enrich_planet_data (planet : Entity) : Entity :=
  [("name", pyGetV planet "name"),
   ("rotation_period", pyGetV planet "rotation_period"),
   ("orbital_period", pyGetV planet "orbital_period"),
   ("diameter", pyGetV planet "diameter"),
   ("climate", pyGetV planet "climate"),
   ("gravity", pyGetV planet "gravity"),
   ("terrain", pyGetV planet "terrain"),
   ("surface_water", pyGetV planet "surface_water"),
   ("population", pyGetV planet "population"),
   ("residents_count", .vNum (pyLenD planet "residents")),
   ("films_count", .vNum (pyLenD planet "films")),
   ("url", pyGetV planet "url")]

/-- Model of `shared/utils.py: fetch_homeworld_details` — falsy URL gives `None`;
inside the `try`, a malformed or zero identifier gives `None`, a client
failure is caught and gives `None`, otherwise the planet is fetched and
shaped. -/
def fetch_homeworld_details (cl : SwapiClient) (homeworld_url : Option String) :
    Option Entity :=
  match homeworld_url with
  | none => none
  | some u =>
    if u = "" then none
    else
      match extract_id_from_url u with
      | some pid =>
        if pid ≠ 0 then
          match cl.getPlanetById pid with
          | .ok planet_data => some (enrich_planet_data planet_data)
          | .error _ => none
        else none
      | none => none

/-- One iteration of the `fetch_films_details` loop before its
`try/except`: `None` when the URL yields no usable identifier (`None` or
`0` is falsy), the client's error when the by-id fetch raises, otherwise
the shaped film. -/
def resolve_film (cl : SwapiClient) (url : String) : Except SwErr (Option Entity) :=
  match extract_id_from_url url with
  | some fid =>
    if fid ≠ 0 then
      match cl.getFilmById fid with
      | .ok film_data => .ok (some (enrich_film_data film_data))
      | .error e => .error e
    else .ok none
  | none => .ok none

/-- Model of `shared/utils.py: fetch_films_details` — iterates the URLs in order;
the `except Exception: continue` downgrades a failed iteration to an
omission. -/
def fetch_films_details (cl : SwapiClient) : List String → List Entity
  | [] => []
  | url :: rest =>
    match resolve_film cl url with
    | .ok (some film) => film :: fetch_films_details cl rest
    | .ok none => fetch_films_details cl rest
    | .error _ => fetch_films_details cl rest

/-- The per-URL outcome of `fetch_films_details` after the `except`:
`none` exactly when the URL is dropped. -/
def try_resolve_film (cl : SwapiClient) (url : String) : Option Entity :=
  match resolve_film cl url with
  | .ok (some film) => some film
  | _ => none

/-- A character document produced by `fetch_characters_details`: the flat
dict from `enrich_character_data`, and — because `PyVal` has no nested
dict constructor — the planet dict that
`enriched_character['homeworld'] = homeworld_details` stores under the
`homeworld` key is carried alongside (`none` when the key keeps its raw
value). -/
structure CharacterDoc where
  fields : Entity
  homeworld_obj : Option Entity
  deriving DecidableEq, Repr

/-- One iteration of the `fetch_characters_details` loop before its
`try/except`, including the optional homeworld deepening
(`fetch_homeworld_details` catches its own failures). -/
def resolve_character (cl : SwapiClient) (deepen : Bool) (url : String) :
    Except SwErr (Option CharacterDoc) :=
  match extract_id_from_url url with
  | some cid =>
    if cid ≠ 0 then
      match cl.getPersonById cid with
      | .ok character_data =>
        let enriched := enrich_character_data character_data
        if deepen then
          match pyGet character_data "homeworld" with
          | some (.vStr hw) =>
            if hw ≠ "" then .ok (some ⟨enriched, fetch_homeworld_details cl (some hw)⟩)
            else .ok (some ⟨enriched, none⟩)
          | _ => .ok (some ⟨enriched, none⟩)
        else .ok (some ⟨enriched, none⟩)
      | .error e => .error e
    else .ok none
  | none => .ok none

/-- Model of `shared/utils.py: fetch_characters_details` — iterates the URLs in
order; `except Exception: continue` downgrades failures to omission. -/
def fetch_characters_details (cl : SwapiClient) (urls : List String)
    (deepen : Bool := false) : List CharacterDoc :=
  match urls with
  | [] => []
  | url :: rest =>
    match resolve_character cl deepen url with
    | .ok (some doc) => doc :: fetch_characters_details cl rest deepen
    | .ok none => fetch_characters_details cl rest deepen
    | .error _ => fetch_characters_details cl rest deepen

/-- The per-URL outcome of `fetch_characters_details` after the `except`. -/
def try_resolve_character (cl : SwapiClient) (deepen : Bool) (url : String) :
    Option CharacterDoc :=
  match resolve_character cl deepen url with
  | .ok (some doc) => some doc
  | _ => none

/-! ### The aggregator (`shared/utils.py: fetch_all_and_paginate`) and the
planets endpoint (`functions/planets/main.py`) -/

/-- A SWAPI list page as `_make_request` parses it: `count`, the
upstream pagination URLs `next`/`previous`, and the `results` items. -/
structure SwapiPage where
  count : Nat
  next : Option String
  previous : Option String
  results : List Entity
  deriving DecidableEq, Repr

/-- The validated request parameters the aggregator reads (`params.search`
and `params.page`; validation bounds `page ≥ 1`). -/
structure QueryParams where
  search : Option String
  page : Nat
  deriving Repr

/-- The dict `fetch_all_and_paginate` returns. -/
structure PageResult where
  items : List Entity
  total : Nat
  next : Option Nat
  previous : Option Nat
  deriving DecidableEq, Repr

/-- The exceptions `fetch_all_and_paginate` can propagate to its caller: a
`SWAPIException` raised by the page-1 fetch, or the `ZeroDivisionError`
from `(total_filtered + page_size - 1) // page_size` when `page_size = 0`
and the filtered set is non-empty. -/
inductive PyErr where
  | swapi (e : SwErr) : PyErr
  | zeroDivision : PyErr
  deriving DecidableEq, Repr

/-- Model of `shared/utils.py: fetch_all_and_paginate`.  The concurrent fetch of
pages `2..total_pages` is modelled by `completionOrder`, the order in
which `concurrent.futures.as_completed` yields the page futures (a real
execution yields each of `2..total_pages` exactly once, in an order the
scheduler chooses); the loop body extends `all_items` in that order and
skips pages whose fetch raised.  The two `//` divisions differ: the
`total_pages` divisor is `len(...) or 10` and hence never zero, while the
`total_pages_filtered` division runs whenever the filtered set is
non-empty and raises `ZeroDivisionError` if `page_size = 0` — that error
path is modelled explicitly. -/
def fetch_all_and_paginate (fetch_func : Option String → Nat → Except SwErr SwapiPage)
    (params : QueryParams) (filters : List (String × String))
    (page_size : Nat) (completionOrder : List Nat) : Except PyErr PageResult :=
  match fetch_func params.search 1 with
  | .error e => .error (PyErr.swapi e)
  | .ok first_page =>
    let all_items := first_page.results
    let total_swapi := first_page.count
    let items_per_page := if all_items.length = 0 then 10 else all_items.length
    let total_pages := (total_swapi + items_per_page - 1) / items_per_page
    let all_items :=
      if 1 < total_pages then
        completionOrder.foldl
          (fun acc p =>
            match fetch_func params.search p with
            | .ok data => acc ++ data.results
            | .error _ => acc) all_items
      else all_items
    let all_items := filters.foldl
      (fun items fv => if fv.2 ≠ "" then filter_by_field items fv.1 fv.2 else items)
      all_items
    let total_filtered := all_items.length
    if 0 < total_filtered ∧ page_size = 0 then .error PyErr.zeroDivision
    else
      let total_pages_filtered :=
        if 0 < total_filtered then (total_filtered + page_size - 1) / page_size else 1
      let start_idx := (params.page - 1) * page_size
      let page_items := (all_items.drop start_idx).take page_size
      let next_page :=
        if params.page < total_pages_filtered then some (params.page + 1) else none
      let previous_page := if 1 < params.page then some (params.page - 1) else none
      .ok ⟨page_items, total_filtered, next_page, previous_page⟩

/-- The JSON body `functions/planets/main.py: get_planets` assembles. -/
structure PlanetsResponse where
  success : Bool
  count : Nat
  total : Nat
  next : Option String
  previous : Option String
  data : List Entity
  deriving DecidableEq, Repr

/-- Model of `functions/planets/main.py: get_planets`, response assembly: ONE
upstream page is fetched, the local `climate`/`terrain` filters are
applied to that page only, and the response copies `total`, `next` and
`previous` straight from the raw upstream page (the include flags, all
false here, only add keys to the items).  Contrast with
`fetch_all_and_paginate`, which the characters endpoint uses. -/
def get_planets_response (data : SwapiPage) (climate terrain : Option String) :
    PlanetsResponse :=
  let planets := data.results
  let planets := match climate with
    | some c => if c ≠ "" then filter_by_field planets "climate" c else planets
    | none => planets
  let planets := match terrain with
    | some t => if t ≠ "" then filter_by_field planets "terrain" t else planets
    | none => planets
  { success := true
    count := planets.length
    total := data.count
    next := data.next
    previous := data.previous
    data := planets.map enrich_planet_data }

/-! ## Helper lemmas -/

theorem takeWhile_append_all (p : α → Bool) (l₁ l₂ : List α)
    (h : ∀ a ∈ l₁, p a = true) :
    (l₁ ++ l₂).takeWhile p = l₁ ++ l₂.takeWhile p := by
  induction l₁ with
  | nil => simp
  | cons a t ih =>
    have ha : p a = true := h a (by simp)
    simp only [List.cons_append, List.takeWhile_cons, ha, if_true]
    rw [ih (fun b hb => h b (by simp [hb]))]

/-! ## Claim C9 — `truncate_text` -/

/-- C9, counterexample: for `maxLength = 2 < 3` the Python negative slice
`text[:-1]` keeps all but one character, so `truncate_text "abcd" 2`
returns the 6-character string `"abc..."`, not a string of length 2. -/
theorem truncate_text_short_max_cex :
    (2 : Int) < ("abcd".length : Int) ∧ truncate_text "abcd" 2 = "abc..." ∧
    (truncate_text "abcd" 2).length = 6 ∧ (6 : Nat) ≠ 2 := by
  exact ⟨by decide, by decide, by decide, by decide⟩

/-- C9, amended: empty input yields `""`; `len(text) ≤ maxLength` returns
the text unchanged; and for `len(text) > maxLength` with `maxLength ≥ 3`
the result is the first `maxLength - 3` characters followed by `"..."`,
of length exactly `maxLength`. -/
theorem truncate_text_spec (text : String) (max_length : Int) :
    truncate_text "" max_length = "" ∧
    ((text.length : Int) ≤ max_length → truncate_text text max_length = text) ∧
    (max_length < (text.length : Int) → 3 ≤ max_length →
      truncate_text text max_length =
        String.mk (text.toList.take (max_length - 3).toNat) ++ "..." ∧
      (truncate_text text max_length).length = max_length.toNat) := by
  refine ⟨by simp [truncate_text], ?_, ?_⟩
  · intro h
    by_cases he : text = ""
    · subst he; simp [truncate_text]
    · simp [truncate_text, he, h]
  · intro h1 h2
    have he : text ≠ "" := by
      intro he
      subst he
      simp only [String.length] at h1
      simp at h1
      omega
    have hcond : ¬ ((text.length : Int) ≤ max_length) := by omega
    have heq : truncate_text text max_length =
        String.mk (text.toList.take (max_length - 3).toNat) ++ "..." := by
      unfold truncate_text pyTake
      rw [if_neg he, if_neg hcond, if_pos (by omega : (0:Int) ≤ max_length - 3)]
    refine ⟨heq, ?_⟩
    rw [heq]
    have hlen : text.toList.length = text.length := rfl
    have h3 : (String.mk (text.toList.take (max_length - 3).toNat)).length
        = (text.toList.take (max_length - 3).toNat).length := rfl
    rw [String.length_append, h3, List.length_take, hlen]
    have : ("..." : String).length = 3 := by decide
    rw [this]
    omega

/-- C9, witness for `truncate_text_spec` at `text = "abcdef"`,
`maxLength = 5`. -/
theorem truncate_text_spec_witness :
    truncate_text "abcdef" 5 =
      String.mk ("abcdef".toList.take ((5 - 3 : Int)).toNat) ++ "..." ∧
    (truncate_text "abcdef" 5).length = (5 : Int).toNat :=
  (truncate_text_spec "abcdef" 5).2.2 (by decide) (by decide)

/-! ## Claim C5 — `extract_id_from_url` -/

/-- C5, counterexample: the trailing segment `0` is returned as the (not
positive) identifier `0`, and a `None` argument raises `TypeError` inside
`re.search` instead of returning `None`. -/
theorem extract_id_from_url_zero_cex :
    extract_id_from_url "https://swapi.dev/api/films/0/" = some 0 ∧
    ¬ 0 < (0 : Nat) ∧
    extract_id_from_url_opt none = .error () := by
  exact ⟨by decide, by decide, rfl⟩

/-- C5, amended: on string inputs the function is total and never raises;
a URL ending in a `/`-preceded run of decimal digits (with at most one
trailing `/`) returns the value of that run — a non-negative integer, with
the segment `0` giving `0` — and the empty string returns `None`. -/
theorem extract_run_eq (q ds : List Char) (h2 : ∀ c ∈ ds, c.isDigit = true) :
    digitRun (q ++ '/' :: ds) = ds := by
  unfold digitRun
  have hrev : (q ++ '/' :: ds).reverse = ds.reverse ++ '/' :: q.reverse := by
    simp [List.reverse_append]
  rw [hrev, takeWhile_append_all Char.isDigit ds.reverse ('/' :: q.reverse)
    (fun a ha => h2 a (List.mem_reverse.mp ha))]
  simp [List.takeWhile_cons]

theorem extract_pre_eq (q ds : List Char) :
    (q ++ '/' :: ds).take ((q ++ '/' :: ds).length - ds.length) = q ++ ['/'] := by
  have hshape : q ++ '/' :: ds = (q ++ ['/']) ++ ds := by simp
  have hlen : (q ++ '/' :: ds).length - ds.length = (q ++ ['/']).length := by
    simp
    omega
  rw [hlen, hshape, List.take_left]

theorem extract_core_slash_digits (q ds : List Char) (h1 : ds ≠ [])
    (h2 : ∀ c ∈ ds, c.isDigit = true) :
    extract_core (q ++ '/' :: ds) = some (digitsVal ds) := by
  have hnotempty : ds.isEmpty = false := by
    cases ds with
    | nil => exact absurd rfl h1
    | cons a t => rfl
  unfold extract_core
  rw [extract_run_eq q ds h2, hnotempty, extract_pre_eq, List.getLast?_concat]
  simp

theorem extract_id_from_url_spec (p : String) (ds : List Char)
    (h1 : ds ≠ []) (h2 : ∀ c ∈ ds, c.isDigit = true) :
    extract_id_from_url (p ++ "/" ++ String.mk ds) = some (digitsVal ds) ∧
    extract_id_from_url (p ++ "/" ++ String.mk ds ++ "/") = some (digitsVal ds) ∧
    extract_id_from_url "" = none := by
  have hslash : Char.isDigit '/' = false := by decide
  have hlast : ds.getLast? = some (ds.getLast h1) := List.getLast?_eq_getLast_of_ne_nil h1
  have hlastd : (ds.getLast h1).isDigit = true := h2 _ (List.getLast_mem h1)
  have hlastne : ds.getLast h1 ≠ '/' := by
    intro h
    rw [h] at hlastd
    exact absurd hlastd (by decide)
  refine ⟨?_, ?_, rfl⟩
  · have hcs : (p ++ "/" ++ String.mk ds).toList = p.toList ++ '/' :: ds := by
      show (p ++ "/" ++ String.mk ds).data = p.data ++ '/' :: ds
      rw [String.data_append, String.data_append]
      simp [String.mk]
    have hne : (p.toList ++ '/' :: ds).getLast? ≠ some '/' := by
      rw [show p.toList ++ '/' :: ds = (p.toList ++ ['/']) ++ ds by simp,
        List.getLast?_append_of_ne_nil _ h1, hlast]
      simp [hlastne]
    unfold extract_id_from_url
    rw [hcs, if_neg hne]
    exact extract_core_slash_digits p.toList ds h1 h2
  · have hcs : (p ++ "/" ++ String.mk ds ++ "/").toList =
        (p.toList ++ '/' :: ds) ++ ['/'] := by
      show (p ++ "/" ++ String.mk ds ++ "/").data = (p.data ++ '/' :: ds) ++ ['/']
      rw [String.data_append, String.data_append, String.data_append]
      simp [String.mk]
    have hgl : ((p.toList ++ '/' :: ds) ++ ['/']).getLast? = some '/' :=
      List.getLast?_concat _
    unfold extract_id_from_url
    rw [hcs, if_pos hgl, List.dropLast_concat]
    exact extract_core_slash_digits p.toList ds h1 h2

/-- C5, witness for `extract_id_from_url_spec` at the films URL with
identifier 14. -/
theorem extract_id_from_url_spec_witness :
    extract_id_from_url ("https://swapi.dev/api/films" ++ "/" ++ String.mk ['1', '4']) =
      some (digitsVal ['1', '4']) ∧
    extract_id_from_url ("https://swapi.dev/api/films" ++ "/" ++ String.mk ['1', '4'] ++ "/") =
      some (digitsVal ['1', '4']) ∧
    extract_id_from_url "" = none :=
  extract_id_from_url_spec "https://swapi.dev/api/films" ['1', '4']
    (by decide) (by decide)

/-! ## Claim C10 — `sort_data` is not total -/

/-- C10: on a list holding one cleanly-numeric sort value (key `num 172`)
and one non-numeric one (key `str "unknown"`), and likewise on one
missing value (key `inf`, the `float('inf')` sentinel) and one non-numeric
one, the key comparison is undefined and `sort_data` raises `TypeError`
instead of returning a list. -/
theorem sort_data_mixed_key_types_error :
    sort_data [[("height", PyVal.vStr "172")], [("height", PyVal.vStr "unknown")]]
      "height" "asc" = .error () ∧
    get_sort_key "height" [("height", PyVal.vStr "172")] = .num 172 ∧
    get_sort_key "height" [("height", PyVal.vStr "unknown")] = .str "unknown" ∧
    sort_data [[("name", PyVal.vStr "R2-D2")], [("height", PyVal.vStr "unknown")]]
      "height" "desc" = .error () ∧
    get_sort_key "height" [("name", PyVal.vStr "R2-D2")] = .inf := by
  refine ⟨rfl, by decide, by decide, rfl, by decide⟩

/-! ## Claim C4 — memoization of the client lookups -/

/-- C4, counterexample: `get_person_by_id` has no `@lru_cache`; a second
call with the same identifier performs a network request again (count 1,
not 0), and a repeated call can still fail when the network does. -/
theorem get_person_by_id_not_memoized_cex :
    (get_person_by_id (fun _ => .ok ([] : Entity)) 1).2 = 1 ∧
    ¬ (get_person_by_id (fun _ => .ok ([] : Entity)) 1).2 = 0 ∧
    (get_person_by_id (fun _ => .error .timeoutErr) 1).1 = .error .timeoutErr := by
  refine ⟨rfl, by decide, rfl⟩

theorem get_film_by_id_cache_head (net : String → Except SwErr Entity)
    (cache : List (Int × Entity)) (film_id : Int) (d : Entity)
    (h : (get_film_by_id net cache film_id).1 = .ok d) :
    ∃ rest, (get_film_by_id net cache film_id).2.1 = (film_id, d) :: rest := by
  unfold get_film_by_id lruGet lruPut at h ⊢
  cases hf : cache.find? (fun p => p.1 == film_id) with
  | some pr =>
    rw [hf] at h
    dsimp only at h ⊢
    have hpr : pr.2 = d := by injection h
    subst hpr
    exact ⟨_, rfl⟩
  | none =>
    rw [hf] at h
    dsimp only at h ⊢
    cases hn : net ("films/" ++ toString film_id ++ "/") with
    | ok w =>
      rw [hn] at h
      dsimp only at h ⊢
      have hw : w = d := by injection h
      subst hw
      exact ⟨List.take 127 cache, rfl⟩
    | error e =>
      rw [hn] at h
      dsimp only at h
      exact absurd h (by simp)

theorem get_film_by_id_hit (net : String → Except SwErr Entity)
    (k : Int) (v : Entity) (rest : List (Int × Entity)) :
    (get_film_by_id net ((k, v) :: rest) k).1 = .ok v ∧
    (get_film_by_id net ((k, v) :: rest) k).2.2 = 0 := by
  unfold get_film_by_id lruGet
  simp [List.find?]

/-- C4, amended: `get_film_by_id` IS memoized (`@lru_cache(maxsize=128)`):
once a call has returned a film, an immediately repeated call with the
same identifier is answered from the cache — it returns the same film,
performs no network request, and cannot fail (the second call's network
is arbitrary, even one that always fails). -/
theorem get_film_by_id_memoized (net net2 : String → Except SwErr Entity)
    (cache : List (Int × Entity)) (film_id : Int) (d : Entity)
    (h : (get_film_by_id net cache film_id).1 = .ok d) :
    (get_film_by_id net2 (get_film_by_id net cache film_id).2.1 film_id).1 = .ok d ∧
    (get_film_by_id net2 (get_film_by_id net cache film_id).2.1 film_id).2.2 = 0 := by
  obtain ⟨rest, hc⟩ := get_film_by_id_cache_head net cache film_id d h
  rw [hc]
  exact get_film_by_id_hit net2 film_id d rest

/-- C4, witness for `get_film_by_id_memoized`: a first call on an empty
cache stores film 1; the repeated call succeeds with zero network
requests even against a network that always fails. -/
theorem get_film_by_id_memoized_witness :
    (get_film_by_id (fun _ => .error .notFound)
      ((get_film_by_id (fun _ => .ok [("title", PyVal.vStr "A New Hope")]) [] 1).2.1) 1).1 =
      .ok [("title", PyVal.vStr "A New Hope")] ∧
    (get_film_by_id (fun _ => .error .notFound)
      ((get_film_by_id (fun _ => .ok [("title", PyVal.vStr "A New Hope")]) [] 1).2.1) 1).2.2 = 0 :=
  get_film_by_id_memoized (fun _ => .ok [("title", PyVal.vStr "A New Hope")])
    (fun _ => .error .notFound) [] 1 [("title", PyVal.vStr "A New Hope")] rfl

/-! ## Claim C6 — aggregator failure policy -/

/-- C6: for every positive page size (the call sites always pass 10, which
keeps the `ZeroDivisionError` path unreachable), `fetch_all_and_paginate`
fails with a `SWAPIException` exactly when the fetch of upstream page 1
fails with that exception — for every network, every filter set, and every
completion order of the concurrent page fetches (failed fetches of pages
2..N are caught in the loop and merely omit that page's items) — and it
never fails for any other reason. -/
theorem fetch_all_and_paginate_error_iff
    (fetch_func : Option String → Nat → Except SwErr SwapiPage)
    (params : QueryParams) (filters : List (String × String)) (page_size : Nat)
    (completionOrder : List Nat) (hps : 0 < page_size) (e : SwErr) :
    (fetch_all_and_paginate fetch_func params filters page_size completionOrder =
        .error (PyErr.swapi e) ↔
      fetch_func params.search 1 = .error e) ∧
    fetch_all_and_paginate fetch_func params filters page_size completionOrder ≠
      .error PyErr.zeroDivision := by
  unfold fetch_all_and_paginate
  cases h : fetch_func params.search 1 with
  | error e' => simp
  | ok fp =>
    have hps0 : ¬ page_size = 0 := by omega
    simp [hps0]

/-- C6, witness for `fetch_all_and_paginate_error_iff` at a network whose
page-1 fetch times out, with the production page size 10. -/
theorem fetch_all_and_paginate_error_iff_witness :
    (fetch_all_and_paginate (fun _ _ => .error .timeoutErr) ⟨none, 1⟩ [] 10 [] =
        .error (PyErr.swapi .timeoutErr) ↔
      (Except.error SwErr.timeoutErr : Except SwErr SwapiPage) = .error .timeoutErr) ∧
    fetch_all_and_paginate (fun _ _ => .error .timeoutErr) ⟨none, 1⟩ [] 10 [] ≠
      .error PyErr.zeroDivision :=
  fetch_all_and_paginate_error_iff (fun _ _ => .error .timeoutErr) ⟨none, 1⟩ [] 10 []
    (by omega) .timeoutErr

/-! ## Claim C7 — the enrichment expanders -/

/-- C7: both expanders return, for every client behaviour and every URL
list, exactly the in-order `filterMap` of the per-URL resolution: the
output order is the input URL order, each URL whose resolution fails
(malformed URL, zero identifier, or any client error, all caught by the
`except` in the loop) is silently dropped, and the functions always
return a plain list — they never propagate a failure. -/
theorem fetch_details_in_order_drop_failures (cl : SwapiClient) (urls : List String)
    (deepen : Bool) :
    fetch_films_details cl urls = urls.filterMap (try_resolve_film cl) ∧
    fetch_characters_details cl urls deepen =
      urls.filterMap (try_resolve_character cl deepen) := by
  constructor
  · induction urls with
    | nil => rfl
    | cons u rest ih =>
      rw [List.filterMap_cons]
      cases h : resolve_film cl u with
      | ok o =>
        cases o with
        | some f => simp [fetch_films_details, try_resolve_film, h, ih]
        | none => simp [fetch_films_details, try_resolve_film, h, ih]
      | error e => simp [fetch_films_details, try_resolve_film, h, ih]
  · induction urls with
    | nil => rfl
    | cons u rest ih =>
      rw [List.filterMap_cons]
      cases h : resolve_character cl deepen u with
      | ok o =>
        cases o with
        | some doc => simp [fetch_characters_details, try_resolve_character, h, ih]
        | none => simp [fetch_characters_details, try_resolve_character, h, ih]
      | error e => simp [fetch_characters_details, try_resolve_character, h, ih]

/-! ## Claim C2 — completion-order dependence of the page concatenation -/

/-- An item tagged with its position, for the aggregation scenarios. -/
def pageItem (n : Nat) : Entity := [("id", PyVal.vNum n)]

/-- A 3-page upstream collection: `count = 5`, two items on page 1 (so
`items_per_page = 2` and `total_pages = 3`), two on page 2, one on
page 3. -/
def threePageFetch : Option String → Nat → Except SwErr SwapiPage
  | _, 1 => .ok ⟨5, some "https://swapi.dev/api/people/?page=2", none, [pageItem 1, pageItem 2]⟩
  | _, 2 => .ok ⟨5, none, none, [pageItem 3, pageItem 4]⟩
  | _, 3 => .ok ⟨5, none, none, [pageItem 5]⟩
  | _, _ => .error .notFound

/-- C2: when the page-3 future completes before the page-2 future (a
legitimate completion order — `[3, 2]` is a permutation of the submitted
pages `[2, 3]`), the candidate set comes out as page 1, page 3, page 2 —
not in ascending upstream page order. -/
theorem fetch_all_completion_order_cex :
    List.Perm [3, 2] [2, 3] ∧
    fetch_all_and_paginate threePageFetch ⟨none, 1⟩ [] 10 [3, 2] =
      .ok ⟨[pageItem 1, pageItem 2, pageItem 5, pageItem 3, pageItem 4], 5, none, none⟩ ∧
    [pageItem 1, pageItem 2, pageItem 5, pageItem 3, pageItem 4] ≠
      [pageItem 1, pageItem 2, pageItem 3, pageItem 4, pageItem 5] := by
  refine ⟨by decide, rfl, by decide⟩

/-! ## Claim C1 — filtered totals in the planets endpoint -/

def tatooine : Entity := [("name", PyVal.vStr "Tatooine"), ("climate", PyVal.vStr "arid")]

def alderaan : Entity := [("name", PyVal.vStr "Alderaan"), ("climate", PyVal.vStr "temperate")]

def hoth : Entity := [("name", PyVal.vStr "Hoth"), ("climate", PyVal.vStr "frozen")]

/-- An upstream planets page: catalog count 60, an upstream `next` token,
three items on this page of which exactly one matches `climate=arid`. -/
def planetsUpstream : SwapiPage :=
  ⟨60, some "https://swapi.dev/api/planets/?page=2", none, [tatooine, alderaan, hoth]⟩

/-- C1, divergence witness: with the local filter `climate=arid` one item
survives, yet `get_planets` answers `total = 60` (the unfiltered upstream
count) and passes the upstream pagination token through as `next` instead
of recomputing them from the filtered count. -/
theorem get_planets_unfiltered_total_cex :
    (filter_by_field planetsUpstream.results "climate" "arid").length = 1 ∧
    (get_planets_response planetsUpstream (some "arid") none).total = 60 ∧
    (get_planets_response planetsUpstream (some "arid") none).next =
      some "https://swapi.dev/api/planets/?page=2" ∧
    (60 : Nat) ≠ 1 := by
  refine ⟨by decide, rfl, rfl, by decide⟩

/-! ## Claim C3 — the retry policy of `_make_request` -/

theorem attemptsLoop_retryable (r : Nat → NetOutcome Entity)
    (fuel attempt : Nat) (hsum : attempt + fuel = 4) (h1 : 1 ≤ attempt)
    (hr : ∀ i, attempt ≤ i → i ≤ 3 → retryable (r i)) :
    (∃ e, (attemptsLoop r 3 attempt fuel).1 = .error e) ∧
    (attemptsLoop r 3 attempt fuel).2 = 3 := by
  induction fuel generalizing attempt with
  | zero =>
    have h4 : attempt = 4 := by omega
    subst h4
    exact ⟨⟨.loopEnd, rfl⟩, rfl⟩
  | succ n ih =>
    have hle : attempt ≤ 3 := by omega
    have hre := hr attempt (le_refl _) hle
    cases hout : r attempt with
    | resp s b =>
      rw [hout] at hre
      simp only [retryable] at hre
      unfold attemptsLoop
      rw [hout]
      dsimp only
      rw [if_neg (by omega : ¬ s = 404),
        if_neg (by omega : ¬ (400 ≤ s ∧ s < 500)), if_pos hre]
      by_cases ha : attempt = 3
      · subst ha
        rw [if_pos rfl]
        exact ⟨⟨_, rfl⟩, rfl⟩
      · rw [if_neg ha]
        exact ih (attempt + 1) (by omega) (by omega)
          (fun i hi1 hi2 => hr i (by omega) hi2)
    | timeout =>
      unfold attemptsLoop
      rw [hout]
      dsimp only
      by_cases ha : attempt = 3
      · subst ha
        rw [if_pos rfl]
        exact ⟨⟨_, rfl⟩, rfl⟩
      · rw [if_neg ha]
        exact ih (attempt + 1) (by omega) (by omega)
          (fun i hi1 hi2 => hr i (by omega) hi2)
    | netFail =>
      unfold attemptsLoop
      rw [hout]
      dsimp only
      by_cases ha : attempt = 3
      · subst ha
        rw [if_pos rfl]
        exact ⟨⟨_, rfl⟩, rfl⟩
      · rw [if_neg ha]
        exact ih (attempt + 1) (by omega) (by omega)
          (fun i hi1 hi2 => hr i (by omega) hi2)

/-- C3: (i) two 5xx responses followed by a parsable sub-400 response make
`_make_request` return that body after exactly 3 attempts; (ii) three
transient outcomes in a row (any mix of 5xx, timeout, transport error)
make it fail with a `SWAPIException` after exactly 3 attempts, with no
fourth attempt; (iii) a 404 or any other 4xx response fails on the first
attempt with no retry. -/
theorem make_request_retry_policy :
    (∀ (r : Nat → NetOutcome Entity) (s1 s2 st : Nat) (b1 b2 : Option Entity) (d : Entity),
      500 ≤ s1 → 500 ≤ s2 → st < 400 →
      r 1 = .resp s1 b1 → r 2 = .resp s2 b2 → r 3 = .resp st (some d) →
      make_request r = (.ok d, 3)) ∧
    (∀ r : Nat → NetOutcome Entity,
      (∀ i, 1 ≤ i → i ≤ 3 → retryable (r i)) →
      (∃ e, (make_request r).1 = .error e) ∧ (make_request r).2 = 3) ∧
    (∀ (r : Nat → NetOutcome Entity) (s : Nat) (b : Option Entity),
      400 ≤ s → s < 500 → r 1 = .resp s b →
      (∃ e, (make_request r).1 = .error e) ∧ (make_request r).2 = 1) := by
  refine ⟨?_, ?_, ?_⟩
  · intro r s1 s2 st b1 b2 d h500a h500b hst h1 h2 h3
    unfold make_request
    unfold attemptsLoop
    rw [h1]
    dsimp only
    rw [if_neg (by omega : ¬ s1 = 404),
      if_neg (by omega : ¬ (400 ≤ s1 ∧ s1 < 500)), if_pos h500a,
      if_neg (by omega : ¬ (1 : Nat) = 3)]
    unfold attemptsLoop
    rw [h2]
    dsimp only
    rw [if_neg (by omega : ¬ s2 = 404),
      if_neg (by omega : ¬ (400 ≤ s2 ∧ s2 < 500)), if_pos h500b,
      if_neg (by omega : ¬ (2 : Nat) = 3)]
    unfold attemptsLoop
    rw [h3]
    dsimp only
    rw [if_neg (by omega : ¬ st = 404),
      if_neg (by omega : ¬ (400 ≤ st ∧ st < 500)),
      if_neg (by omega : ¬ 500 ≤ st)]
  · intro r hr
    exact attemptsLoop_retryable r 3 1 rfl (le_refl 1) hr
  · intro r s b h4a h4b h1
    unfold make_request
    unfold attemptsLoop
    rw [h1]
    dsimp only
    by_cases h404 : s = 404
    · rw [if_pos h404]
      exact ⟨⟨_, rfl⟩, rfl⟩
    · rw [if_neg h404, if_pos (by omega : 400 ≤ s ∧ s < 500)]
      exact ⟨⟨_, rfl⟩, rfl⟩

/-! ## Claim C8 — stability and missing-value placement of `sort_data` -/

theorem lexLt_irrefl (l : List String) : lexLtStrList l l = false := by
  induction l with
  | nil => rfl
  | cons a t ih => simp [lexLtStrList, lt_irrefl, ih]

theorem lexLt_asymm : ∀ {a b : List String},
    lexLtStrList a b = true → lexLtStrList b a = false := by
  intro a
  induction a with
  | nil =>
    intro b h
    cases b with
    | nil => simp [lexLtStrList] at h
    | cons y ys => rfl
  | cons x xs ih =>
    intro b h
    cases b with
    | nil => simp [lexLtStrList] at h
    | cons y ys =>
      unfold lexLtStrList at h ⊢
      by_cases hxy : x < y
      · rw [if_neg (asymm hxy : ¬ y < x), if_neg (by
          intro he
          rw [he] at hxy
          exact lt_irrefl x hxy)]
      · rw [if_neg hxy] at h
        by_cases heq : x = y
        · subst heq
          rw [if_pos rfl] at h
          rw [if_neg (lt_irrefl x), if_pos rfl]
          exact ih h
        · rw [if_neg heq] at h
          exact absurd h (by simp)

theorem lexLt_le_trans : ∀ {a b c : List String},
    lexLtStrList b a = false → lexLtStrList c b = false → lexLtStrList c a = false := by
  intro a
  induction a with
  | nil =>
    intro b c _ _
    cases c with
    | nil => rfl
    | cons c0 cs => rfl
  | cons a0 as ih =>
    intro b c h1 h2
    cases b with
    | nil => simp [lexLtStrList] at h1
    | cons b0 bs =>
      cases c with
      | nil => simp [lexLtStrList] at h2
      | cons c0 cs =>
        unfold lexLtStrList at h1 h2 ⊢
        by_cases h1a : b0 < a0
        · rw [if_pos h1a] at h1
          exact absurd h1 (by simp)
        rw [if_neg h1a] at h1
        by_cases h2a : c0 < b0
        · rw [if_pos h2a] at h2
          exact absurd h2 (by simp)
        rw [if_neg h2a] at h2
        have hba : a0 ≤ b0 := not_lt.mp h1a
        have hcb : b0 ≤ c0 := not_lt.mp h2a
        rw [if_neg (not_lt.mpr (le_trans hba hcb))]
        by_cases heq : c0 = a0
        · subst heq
          have hb0 : b0 = c0 := le_antisymm hcb hba
          subst hb0
          rw [if_pos rfl] at h1 h2
          rw [if_pos rfl]
          exact ih h1 h2
        · rw [if_neg heq]

theorem pyLt_self (k : SKey) : pyLt k k = some false := by
  cases k with
  | num q => simp [pyLt]
  | inf => rfl
  | str s => simp [pyLt]
  | lst l => simp [pyLt, lexLt_irrefl]

theorem pyLt_asymm : ∀ {a b : SKey}, pyLt a b = some true → pyLt b a = some false := by
  intro a b h
  cases a <;> cases b <;> simp_all [pyLt]
  case num.num qa qb => exact le_of_lt h
  case str.str sa sb => exact le_of_lt h
  case lst.lst la lb => exact lexLt_asymm h

theorem pyLt_le_trans : ∀ {a b c : SKey},
    pyLt b a = some false → pyLt c b = some false → pyLt c a = some false := by
  intro a b c h1 h2
  cases a <;> cases b <;> cases c <;> simp_all [pyLt]
  case num.num.num qa qb qc => exact le_trans h1 h2
  case str.str.str sa sb sc => exact le_trans h1 h2
  case lst.lst.lst la lb lc => exact lexLt_le_trans h1 h2

theorem stayBefore_self (rev : Bool) (k : SKey) : stayBefore rev k k = some false := by
  unfold stayBefore
  cases rev <;> simp [pyLt_self]

theorem stayBefore_asymm {rev : Bool} {ky kx : SKey}
    (h : stayBefore rev ky kx = some true) : stayBefore rev kx ky = some false := by
  unfold stayBefore at h ⊢
  cases rev with
  | false =>
    simp only [Bool.false_eq_true, if_false] at h ⊢
    exact pyLt_asymm h
  | true =>
    simp only [if_true] at h ⊢
    exact pyLt_asymm h

theorem stayBefore_false_trans {rev : Bool} {k1 k2 k3 : SKey}
    (h1 : stayBefore rev k1 k2 = some false) (h2 : stayBefore rev k2 k3 = some false) :
    stayBefore rev k1 k3 = some false := by
  unfold stayBefore at h1 h2 ⊢
  cases rev with
  | false =>
    simp only [Bool.false_eq_true, if_false] at h1 h2 ⊢
    exact pyLt_le_trans h2 h1
  | true =>
    simp only [if_true] at h1 h2 ⊢
    exact pyLt_le_trans h1 h2

theorem insertE_eq_insertP (rev : Bool) (key : Entity → SKey) (x : Entity)
    (l : List Entity)
    (h : ∀ y ∈ l, (stayBefore rev (key y) (key x)).isSome = true) :
    insertE rev key x l = .ok (insertP rev key x l) := by
  induction l with
  | nil => rfl
  | cons y ys ih =>
    have hy := h y (by simp)
    unfold insertE insertP
    cases hsb : stayBefore rev (key y) (key x) with
    | none => rw [hsb] at hy; simp at hy
    | some bv =>
      cases bv with
      | false => simp [hsb]
      | true => simp [hsb, ih (fun z hz => h z (by simp [hz])), Except.map]

theorem mem_insertP {rev : Bool} {key : Entity → SKey} {x a : Entity}
    {l : List Entity} : a ∈ insertP rev key x l ↔ a = x ∨ a ∈ l := by
  induction l with
  | nil => simp [insertP]
  | cons y ys ih =>
    unfold insertP
    by_cases hsb : (stayBefore rev (key y) (key x)).getD false
    · rw [if_pos hsb]
      simp [ih]
      tauto
    · rw [if_neg hsb]
      simp

theorem mem_sortP {rev : Bool} {key : Entity → SKey} {a : Entity} {l : List Entity} :
    a ∈ sortP rev key l ↔ a ∈ l := by
  induction l with
  | nil => simp [sortP]
  | cons x xs ih =>
    unfold sortP
    rw [mem_insertP, ih]
    simp

theorem sortE_eq_sortP (rev : Bool) (key : Entity → SKey) (l : List Entity)
    (h : ∀ a ∈ l, ∀ b ∈ l, (stayBefore rev (key a) (key b)).isSome = true) :
    sortE rev key l = .ok (sortP rev key l) := by
  induction l with
  | nil => rfl
  | cons x xs ih =>
    unfold sortE sortP
    rw [ih (fun a ha b hb => h a (by simp [ha]) b (by simp [hb]))]
    show insertE rev key x (sortP rev key xs) = _
    exact insertE_eq_insertP rev key x (sortP rev key xs)
      (fun y hy => h y (by simp [mem_sortP.mp hy]) x (by simp))

theorem filter_insertP (rev : Bool) (key : Entity → SKey) (x : Entity)
    (l : List Entity) (k : SKey) :
    (insertP rev key x l).filter (fun e => key e == k) =
      if key x == k then x :: l.filter (fun e => key e == k)
      else l.filter (fun e => key e == k) := by
  induction l with
  | nil =>
    by_cases hx : (key x == k) = true <;>
      simp [insertP, List.filter_cons, hx]
  | cons y ys ih =>
    unfold insertP
    by_cases hsb : (stayBefore rev (key y) (key x)).getD false
    · by_cases hx : (key x == k) = true
      · have hy : (key y == k) = false := by
          by_contra hy'
          have hy2 : (key y == k) = true := by
            cases hcase : (key y == k) <;> simp_all
          have heq : key y = key x := by
            rw [beq_iff_eq.mp hy2, beq_iff_eq.mp hx]
          rw [heq, stayBefore_self] at hsb
          simp at hsb
        simp [hsb, List.filter_cons, hx, hy, ih]
      · simp [hsb, List.filter_cons, hx, ih]
    · by_cases hx : (key x == k) = true <;>
        simp [hsb, List.filter_cons, hx]

theorem filter_sortP (rev : Bool) (key : Entity → SKey) (l : List Entity) (k : SKey) :
    (sortP rev key l).filter (fun e => key e == k) =
      l.filter (fun e => key e == k) := by
  induction l with
  | nil => rfl
  | cons x xs ih =>
    unfold sortP
    rw [filter_insertP, List.filter_cons]
    by_cases h : (key x == k) = true
    · rw [if_pos h, if_pos h, ih]
    · rw [if_neg h, if_neg h, ih]

/-- The ordering invariant of the produced list: each earlier element is
one the stable comparison would keep in front of each later element. -/
def goodR (rev : Bool) (key : Entity → SKey) (a b : Entity) : Prop :=
  stayBefore rev (key b) (key a) = some false

theorem pairwise_insertP (rev : Bool) (key : Entity → SKey) (x : Entity)
    (l : List Entity)
    (hcomp : ∀ y ∈ l, (stayBefore rev (key y) (key x)).isSome = true)
    (hpw : l.Pairwise (goodR rev key)) :
    (insertP rev key x l).Pairwise (goodR rev key) := by
  induction l with
  | nil => simp [insertP]
  | cons y ys ih =>
    obtain ⟨hy_all, hpw_ys⟩ := List.pairwise_cons.mp hpw
    have hycomp := hcomp y (by simp)
    unfold insertP
    by_cases hsb : (stayBefore rev (key y) (key x)).getD false
    · rw [if_pos hsb]
      refine List.pairwise_cons.mpr ⟨?_, ih (fun z hz => hcomp z (by simp [hz])) hpw_ys⟩
      intro z hz
      rcases mem_insertP.mp hz with rfl | hz'
      · have htrue : stayBefore rev (key y) (key z) = some true := by
          obtain ⟨bv, hbv⟩ := Option.isSome_iff_exists.mp hycomp
          rw [hbv] at hsb
          simp at hsb
          rw [hbv, hsb]
        exact stayBefore_asymm htrue
      · exact hy_all z hz'
    · rw [if_neg hsb]
      have hxy : goodR rev key x y := by
        obtain ⟨bv, hbv⟩ := Option.isSome_iff_exists.mp hycomp
        rw [hbv] at hsb
        unfold goodR
        rw [hbv]
        cases bv with
        | false => rfl
        | true => simp at hsb
      refine List.pairwise_cons.mpr ⟨?_, hpw⟩
      intro z hz
      rcases List.mem_cons.mp hz with rfl | hz'
      · exact hxy
      · exact stayBefore_false_trans (hy_all z hz') hxy

theorem pairwise_sortP (rev : Bool) (key : Entity → SKey) (l : List Entity)
    (hcomp : ∀ a ∈ l, ∀ b ∈ l, (stayBefore rev (key a) (key b)).isSome = true) :
    (sortP rev key l).Pairwise (goodR rev key) := by
  induction l with
  | nil => exact List.Pairwise.nil
  | cons x xs ih =>
    unfold sortP
    exact pairwise_insertP rev key x (sortP rev key xs)
      (fun y hy => hcomp y (by simp [mem_sortP.mp hy]) x (by simp))
      (ih (fun a ha b hb => hcomp a (by simp [ha]) b (by simp [hb])))

theorem pyLt_inf_some_false {k : SKey} (h : pyLt k SKey.inf = some false) :
    k = SKey.inf := by
  cases k <;> simp_all [pyLt]

/-- C8, amended: whenever all resolved sort keys of the input are mutually
comparable (no `TypeError`, cf. the non-totality claim), `sort_data`
returns a list that (i) is stable — for every key value, the subsequence
of items carrying that key is exactly the input's subsequence, in the
input's order — in BOTH directions, (ii) in ascending order places every
missing-field item (key `inf`) after all items with a present key, and
(iii) in DESCENDING order places every missing-field item before all items
with a present key (the `float('inf')` sentinel is the greatest key, and
`reverse=True` moves the greatest keys to the head). -/
theorem sort_data_stability_and_missing_placement (data : List Entity)
    (sort_by ord : String)
    (hcomp : ∀ x ∈ data, ∀ y ∈ data,
      (pyLt (get_sort_key sort_by x) (get_sort_key sort_by y)).isSome = true) :
    ∃ out, sort_data data sort_by ord = .ok out ∧
      (∀ k : SKey, out.filter (fun e => get_sort_key sort_by e == k) =
        data.filter (fun e => get_sort_key sort_by e == k)) ∧
      (ord ≠ "desc" → ∀ i j (hi : i < out.length) (hj : j < out.length), i < j →
        get_sort_key sort_by (out.get ⟨i, hi⟩) = .inf →
        get_sort_key sort_by (out.get ⟨j, hj⟩) = .inf) ∧
      (ord = "desc" → ∀ i j (hi : i < out.length) (hj : j < out.length), i < j →
        get_sort_key sort_by (out.get ⟨j, hj⟩) = .inf →
        get_sort_key sort_by (out.get ⟨i, hi⟩) = .inf) := by
  have hsb : ∀ a ∈ data, ∀ b ∈ data,
      (stayBefore (ord == "desc") (get_sort_key sort_by a)
        (get_sort_key sort_by b)).isSome = true := by
    intro a ha b hb
    unfold stayBefore
    cases (ord == "desc") with
    | false => exact hcomp a ha b hb
    | true => exact hcomp b hb a ha
  have hpw := pairwise_sortP (ord == "desc") (get_sort_key sort_by) data hsb
  refine ⟨sortP (ord == "desc") (get_sort_key sort_by) data, ?_, ?_, ?_, ?_⟩
  · exact sortE_eq_sortP (ord == "desc") (get_sort_key sort_by) data hsb
  · intro k
    exact filter_sortP (ord == "desc") (get_sort_key sort_by) data k
  · intro hne i j hi hj hij hinf
    have hrev : (ord == "desc") = false := beq_eq_false_iff_ne.mpr hne
    have hg := List.pairwise_iff_get.mp hpw ⟨i, hi⟩ ⟨j, hj⟩ hij
    generalize hga : (sortP (ord == "desc") (get_sort_key sort_by) data).get ⟨i, hi⟩ = ea at hg hinf
    generalize hgb : (sortP (ord == "desc") (get_sort_key sort_by) data).get ⟨j, hj⟩ = eb at hg ⊢
    unfold goodR stayBefore at hg
    rw [hrev] at hg
    simp only [Bool.false_eq_true, if_false] at hg
    rw [hinf] at hg
    exact pyLt_inf_some_false hg
  · intro hdesc i j hi hj hij hinf
    have hrev : (ord == "desc") = true := beq_iff_eq.mpr hdesc
    have hg := List.pairwise_iff_get.mp hpw ⟨i, hi⟩ ⟨j, hj⟩ hij
    generalize hga : (sortP (ord == "desc") (get_sort_key sort_by) data).get ⟨i, hi⟩ = ea at hg ⊢
    generalize hgb : (sortP (ord == "desc") (get_sort_key sort_by) data).get ⟨j, hj⟩ = eb at hg hinf
    unfold goodR stayBefore at hg
    rw [hrev] at hg
    simp only [if_true] at hg
    rw [hinf] at hg
    exact pyLt_inf_some_false hg

def luke : Entity := [("name", PyVal.vStr "Luke"), ("height", PyVal.vStr "172")]

def r2d2 : Entity := [("name", PyVal.vStr "R2-D2")]

def yoda : Entity := [("name", PyVal.vStr "Yoda"), ("height", PyVal.vStr "66")]

/-- C8, counterexample: sorting by `height` DESCENDING puts the item with
no `height` field (key `inf`) FIRST, before every item with a present
key — the claim's "missing values sort after present ones in both
orders" fails in descending order. -/
theorem sort_data_desc_missing_first_cex :
    sort_data [r2d2, luke] "height" "desc" = .ok [r2d2, luke] ∧
    get_sort_key "height" r2d2 = .inf ∧
    get_sort_key "height" luke = .num 172 := by
  refine ⟨rfl, by decide, by decide⟩

/-- C8, witness for `sort_data_stability_and_missing_placement` on a
concrete ascending sort with one missing key. -/
theorem sort_data_stability_witness :
    ∃ out, sort_data [luke, r2d2, yoda] "height" "asc" = .ok out ∧
      (∀ k : SKey, out.filter (fun e => get_sort_key "height" e == k) =
        [luke, r2d2, yoda].filter (fun e => get_sort_key "height" e == k)) ∧
      ("asc" ≠ "desc" → ∀ i j (hi : i < out.length) (hj : j < out.length), i < j →
        get_sort_key "height" (out.get ⟨i, hi⟩) = .inf →
        get_sort_key "height" (out.get ⟨j, hj⟩) = .inf) ∧
      ("asc" = "desc" → ∀ i j (hi : i < out.length) (hj : j < out.length), i < j →
        get_sort_key "height" (out.get ⟨j, hj⟩) = .inf →
        get_sort_key "height" (out.get ⟨i, hi⟩) = .inf) :=
  sort_data_stability_and_missing_placement [luke, r2d2, yoda] "height" "asc"
    (by decide)

/-- C3, witness: a concrete 5xx–5xx–success run, a run of three timeouts,
and a first-attempt 403. -/
theorem make_request_retry_policy_witness :
    make_request (fun i => if i = 1 then NetOutcome.resp 500 none
      else if i = 2 then NetOutcome.resp 502 none
      else NetOutcome.resp 200 (some ([] : Entity))) = (.ok [], 3) ∧
    ((∃ e, (make_request (fun _ => (NetOutcome.timeout : NetOutcome Entity))).1 = .error e) ∧
      (make_request (fun _ => (NetOutcome.timeout : NetOutcome Entity))).2 = 3) ∧
    ((∃ e, (make_request (fun _ => (NetOutcome.resp 403 none : NetOutcome Entity))).1 = .error e) ∧
      (make_request (fun _ => (NetOutcome.resp 403 none : NetOutcome Entity))).2 = 1) :=
  ⟨make_request_retry_policy.1 _ 500 502 200 none none []
      (by omega) (by omega) (by omega) rfl rfl rfl,
    make_request_retry_policy.2.1 _ (fun i _ _ => by simp only [retryable]),
    make_request_retry_policy.2.2 _ 403 none (by omega) (by omega) rfl⟩

end StarWarsApi
